import Mathlib

/-!
Verification development for the blackjack / dice-roller Arduino programs
(lukedmathes/arduino-misc).  The definitions below are a shallow embedding
of the C source: the scoring pass of draw_new_cards, the player and dealer
turn loops of blackjack(), the result comparison, the ReadButtons debounce
logic, and the selection_input value navigation of the dice roller.  Bytes
are modelled as Nat (all card totals stay far below 256; the one place the
byte width matters, the debounce counter, carries an explicit mod 256),
and the int8_t selection index is modelled as Int under range hypotheses
that keep the model inside the int8_t range.
-/

namespace ArduinoMisc

/-- Return values of ReadButtons, from the BUTTON_* defines. -/
def BUTTON_NONE : Nat := 0

def BUTTON_RIGHT : Nat := 1

def BUTTON_UP : Nat := 2

def BUTTON_DOWN : Nat := 3

def BUTTON_LEFT : Nat := 4

def BUTTON_SELECT : Nat := 5

/-- ADC calibration points for the five buttons on the voltage ladder. -/
def RIGHT_10BIT_ADC : Nat := 0

def UP_10BIT_ADC : Nat := 154

def DOWN_10BIT_ADC : Nat := 392

def LEFT_10BIT_ADC : Nat := 626

def SELECT_10BIT_ADC : Nat := 972

def BUTTONHYSTERESIS : Nat := 10

/-- Mask for debouncing, 0b00111111. -/
def DEBOUNCE_BIT_MASK : Nat := 0x3f

/-- Sentinel scores returned by draw_new_cards for terminal hands. -/
def BLACKJACK_SCORE : Nat := 50

def FIVE_UNDER_SCORE : Nat := 40

def BUST_SCORE : Nat := 30

/-- Value a single card contributes to the raw total in the scoring loop of
draw_new_cards: picture cards (rank above 10) count 10, ranks 2..10 count
face value, and the final else branch (the Ace case) counts 11. -/
def cardValue (r : Nat) : Nat :=
  if 10 < r then 10 else if 1 < r then r else 11

/-- Number of cards taken by the final else branch of the scoring loop:
exactly those with rank at most 1, each of which also bumps ace_count. -/
def aceCount (hand : List Nat) : Nat :=
  List.countP (fun r => decide (r ≤ 1)) hand

/-- Raw Ace-as-11 total of the scoring loop of draw_new_cards. -/
def rawTotal (hand : List Nat) : Nat :=
  (hand.map cardValue).sum

/-- The Ace demotion loop of draw_new_cards,
while (21 < total and 0 < ace_count) { total -= 10; ace_count--; },
written as structural recursion on the ace count. -/
def demote : Nat → Nat → Nat
  | total, 0 => total
  | total, k + 1 => if 21 < total then demote (total - 10) k else total

/-- The Ace-adjusted total of a hand after the demotion loop. -/
def adjustedTotal (hand : List Nat) : Nat :=
  demote (rawTotal hand) (aceCount hand)

lemma demote_spec (k : Nat) : ∀ t : Nat,
    (t - 10 * k ≤ 21 →
      demote t k ≤ 21 ∧
      (∃ j, j ≤ k ∧ demote t k = t - 10 * j) ∧
      (∀ i, i ≤ k → t - 10 * i ≤ 21 → t - 10 * i ≤ demote t k)) ∧
    (21 < t - 10 * k → demote t k = t - 10 * k) := by
  induction k with
  | zero =>
    intro t
    refine ⟨fun h => ⟨?_, ⟨0, Nat.le_refl 0, ?_⟩, ?_⟩, fun _ => rfl⟩
    · simpa using h
    · simp [demote]
    · intro i hi h2
      have : i = 0 := Nat.le_zero.mp hi
      subst this
      simp [demote]
  | succ k ih =>
    intro t
    by_cases h21 : 21 < t
    · have e : demote t (k + 1) = demote (t - 10) k := by
        simp [demote, h21]
      obtain ⟨A, B⟩ := ih (t - 10)
      constructor
      · intro h
        have h' : t - 10 - 10 * k ≤ 21 := by omega
        obtain ⟨hle, ⟨j, hj, hEq⟩, hmax⟩ := A h'
        refine ⟨by rw [e]; exact hle, ⟨j + 1, by omega, ?_⟩, ?_⟩
        · rw [e, hEq]; omega
        · intro i hi hle2
          match i with
          | 0 => exact absurd hle2 (by omega)
          | i + 1 =>
            have e2 : t - 10 * (i + 1) = t - 10 - 10 * i := by omega
            rw [e, e2]
            exact hmax i (by omega) (by omega)
      · intro h
        rw [e, B (by omega)]
        omega
    · have e : demote t (k + 1) = t := by
        simp [demote, h21]
      constructor
      · intro _
        refine ⟨by rw [e]; omega, ⟨0, by omega, by rw [e]; omega⟩, ?_⟩
        intro i hi hle2
        rw [e]; omega
      · intro h
        exact absurd h (by omega)

/-- C2: for every hand (ranks in 1..13), the Ace-demotion pass of
draw_new_cards terminates (it is a total function of the hand) and, writing
rawTotal - 10 * aceCount for the all-Aces-as-1 minimum, returns the maximum
Ace-assignment total that is at most 21 when one exists (the assignment
totals being rawTotal - 10 * j for j demoted Aces, 0 ≤ j ≤ aceCount), and
otherwise the minimum with every Ace counted as 1. -/
theorem score_demotion_correct (hand : List Nat)
    (_hranks : ∀ r ∈ hand, 1 ≤ r ∧ r ≤ 13) :
    (rawTotal hand - 10 * aceCount hand ≤ 21 →
      adjustedTotal hand ≤ 21 ∧
      (∃ j, j ≤ aceCount hand ∧
        adjustedTotal hand = rawTotal hand - 10 * j) ∧
      (∀ j, j ≤ aceCount hand → rawTotal hand - 10 * j ≤ 21 →
        rawTotal hand - 10 * j ≤ adjustedTotal hand)) ∧
    (21 < rawTotal hand - 10 * aceCount hand →
      adjustedTotal hand = rawTotal hand - 10 * aceCount hand) := by
  have h := demote_spec (aceCount hand) (rawTotal hand)
  constructor
  · intro hmin
    obtain ⟨hle, hmem, hmax⟩ := h.1 hmin
    exact ⟨hle, hmem, fun j hj hj21 => hmax j hj hj21⟩
  · intro hmin
    exact h.2 hmin

/-- Witness for C2 at the spec's own example: two Aces plus three
ten-value cards, raw 52, both Aces demoted, final total 32 (still a bust). -/
theorem score_demotion_correct_witness :
    (∀ r ∈ ([1, 1, 10, 10, 10] : List Nat), 1 ≤ r ∧ r ≤ 13) ∧
    adjustedTotal [1, 1, 10, 10, 10] = 32 := by
  refine ⟨by decide, ?_⟩
  have h := (score_demotion_correct [1, 1, 10, 10, 10] (by decide)).2 (by decide)
  rw [h]; decide

/-- The score computed and returned by draw_new_cards as a function of the
hand: the raw Ace-as-11 total, the Ace demotion loop (run only when an Ace
is present, exactly as in the source), then the early returns for
Blackjack (2 cards and adjusted total 21, checked inside the Ace block),
Bust (adjusted total above 21) and Five-under (5 or more cards), and the
adjusted total itself otherwise. -/
def classify (hand : List Nat) : Nat :=
  let raw := rawTotal hand
  let aces := aceCount hand
  let total := if 0 < aces then demote raw aces else raw
  if 0 < aces ∧ hand.length = 2 ∧ total = 21 then BLACKJACK_SCORE
  else if 21 < total then BUST_SCORE
  else if 5 ≤ hand.length then FIVE_UNDER_SCORE
  else total

lemma adjusted_code_eq (hand : List Nat) :
    (if 0 < aceCount hand then demote (rawTotal hand) (aceCount hand)
      else rawTotal hand) = adjustedTotal hand := by
  rcases Nat.eq_zero_or_pos (aceCount hand) with h | h
  · simp [adjustedTotal, h, demote]
  · simp [adjustedTotal, h]

lemma classify_eq (hand : List Nat) :
    classify hand =
      if 0 < aceCount hand ∧ hand.length = 2 ∧ adjustedTotal hand = 21 then
        BLACKJACK_SCORE
      else if 21 < adjustedTotal hand then BUST_SCORE
      else if 5 ≤ hand.length then FIVE_UNDER_SCORE
      else adjustedTotal hand := by
  simp only [classify]
  rw [adjusted_code_eq]

/-- The four ScoreResult states of the specification's data model. -/
inductive HandState where
  | inProgress
  | bust
  | blackjack
  | fiveUnder
deriving DecidableEq

/-- The ScoreResult state of a hand, derived from the same branch
conditions draw_new_cards tests. -/
def stateOf (hand : List Nat) : HandState :=
  if 0 < aceCount hand ∧ hand.length = 2 ∧ adjustedTotal hand = 21 then
    HandState.blackjack
  else if 21 < adjustedTotal hand then HandState.bust
  else if 5 ≤ hand.length then HandState.fiveUnder
  else HandState.inProgress

lemma classify_stateOf_cases (hand : List Nat) :
    (stateOf hand = HandState.blackjack ∧ classify hand = BLACKJACK_SCORE) ∨
    (stateOf hand = HandState.bust ∧ classify hand = BUST_SCORE) ∨
    (stateOf hand = HandState.fiveUnder ∧ classify hand = FIVE_UNDER_SCORE) ∨
    (stateOf hand = HandState.inProgress ∧
      classify hand = adjustedTotal hand ∧ adjustedTotal hand ≤ 21) := by
  rw [classify_eq]
  unfold stateOf
  split_ifs with h1 h2 h3
  · exact Or.inl ⟨rfl, rfl⟩
  · exact Or.inr (Or.inl ⟨rfl, rfl⟩)
  · exact Or.inr (Or.inr (Or.inl ⟨rfl, rfl⟩))
  · exact Or.inr (Or.inr (Or.inr ⟨rfl, rfl, by omega⟩))

lemma classify_le21_iff (hand : List Nat) :
    classify hand ≤ 21 ↔ stateOf hand = HandState.inProgress := by
  rcases classify_stateOf_cases hand with ⟨hs, hc⟩ | ⟨hs, hc⟩ | ⟨hs, hc⟩ |
    ⟨hs, hc, hle⟩ <;> rw [hs, hc]
  · decide
  · decide
  · decide
  · simpa using hle

lemma classify_gt21_of_len5 (hand : List Nat) (h : 5 ≤ hand.length) :
    21 < classify hand := by
  rw [classify_eq]
  split_ifs with h1 h2 <;> decide

lemma length_le_four_of_not_terminal (hand : List Nat)
    (h : ¬ 21 < classify hand) : hand.length ≤ 4 := by
  by_contra hc
  exact h (classify_gt21_of_len5 hand (by omega))

/-- Outcome of the result comparison at the end of blackjack(). -/
inductive Outcome where
  | playerWins
  | dealerWins
  | draw
deriving DecidableEq

/-- The normalisation before the result comparison:
if (BUST_SCORE == total) total = 0. -/
def normalizeScore (total : Nat) : Nat :=
  if total = BUST_SCORE then 0 else total

/-- The result comparison of blackjack(): both totals are zeroed when they
are the Bust sentinel, then compared with a plain greater-than. -/
def compareTotals (player_total dealer_total : Nat) : Outcome :=
  let p := normalizeScore player_total
  let d := normalizeScore dealer_total
  if p > d then Outcome.playerWins
  else if d > p then Outcome.dealerWins
  else Outcome.draw

lemma fiveUnder_beats (t : Nat) (ht : t ≤ 21) :
    compareTotals FIVE_UNDER_SCORE t = Outcome.playerWins := by
  have hn : normalizeScore t = t := by
    unfold normalizeScore BUST_SCORE
    rw [if_neg (by omega)]
  simp only [compareTotals, hn]
  rw [show normalizeScore FIVE_UNDER_SCORE = 40 from by decide]
  rw [if_pos (by omega)]

/-- C3: in the result comparison, a Bust score compares strictly below any
positive non-bust total: Bust versus a non-bust dealer total loses, Bust
versus Bust draws, and a non-bust player total versus a dealer Bust wins;
in particular Bust vs 18 is a dealer win and 20 vs Bust a player win. -/
theorem bust_comparator_correct :
    (∀ d, 0 < d → d ≠ BUST_SCORE →
      compareTotals BUST_SCORE d = Outcome.dealerWins) ∧
    compareTotals BUST_SCORE BUST_SCORE = Outcome.draw ∧
    (∀ p, 0 < p → p ≠ BUST_SCORE →
      compareTotals p BUST_SCORE = Outcome.playerWins) ∧
    compareTotals BUST_SCORE 18 = Outcome.dealerWins ∧
    compareTotals 20 BUST_SCORE = Outcome.playerWins := by
  refine ⟨?_, by decide, ?_, by decide, by decide⟩
  · intro d hd hne
    have hn : normalizeScore d = d := by
      unfold normalizeScore
      rw [if_neg hne]
    simp only [compareTotals, hn]
    rw [show normalizeScore BUST_SCORE = 0 from by decide]
    rw [if_neg (by omega), if_pos (by omega)]
  · intro p hp hne
    have hn : normalizeScore p = p := by
      unfold normalizeScore
      rw [if_neg hne]
    simp only [compareTotals, hn]
    rw [show normalizeScore BUST_SCORE = 0 from by decide]
    rw [if_pos (by omega)]

/-- Witness for C3: the spec's concrete instances, discharged through the
general comparator theorem. -/
theorem bust_comparator_correct_witness :
    (0 < 18 ∧ (18 : Nat) ≠ BUST_SCORE ∧
      compareTotals BUST_SCORE 18 = Outcome.dealerWins) ∧
    (0 < 20 ∧ (20 : Nat) ≠ BUST_SCORE ∧
      compareTotals 20 BUST_SCORE = Outcome.playerWins) :=
  ⟨⟨by decide, by decide, bust_comparator_correct.1 18 (by decide) (by decide)⟩,
    ⟨by decide, by decide, bust_comparator_correct.2.2.1 20 (by decide) (by decide)⟩⟩

/-- C4: every 2-card hand with ranks in 1..13 whose Ace-adjusted total is
21 contains an Ace (so the Ace-guarded Blackjack check of draw_new_cards
is equivalent to an unconditional one) and is classified Blackjack, taking
priority over every other classification. -/
theorem twocard_21_blackjack (a b : Nat)
    (ha1 : 1 ≤ a) (ha2 : a ≤ 13) (hb1 : 1 ≤ b) (hb2 : b ≤ 13)
    (h21 : adjustedTotal [a, b] = 21) :
    0 < aceCount [a, b] ∧ classify [a, b] = BLACKJACK_SCORE := by
  interval_cases a <;> interval_cases b <;> revert h21 <;> decide

/-- Witness for C4 at the hand Ace + King. -/
theorem twocard_21_blackjack_witness :
    (1 ≤ 1 ∧ 1 ≤ 13 ∧ 1 ≤ 13 ∧ 13 ≤ 13 ∧ adjustedTotal [1, 13] = 21) ∧
    (0 < aceCount [1, 13] ∧ classify [1, 13] = BLACKJACK_SCORE) :=
  ⟨⟨by decide, by decide, by decide, by decide, by decide⟩,
    twocard_21_blackjack 1 13 (by decide) (by decide) (by decide) (by decide)
      (by decide)⟩

/-- C10: draw_new_cards returns a value at most 21 exactly when the hand is
InProgress; the terminal states are encoded as the sentinels 30 (Bust),
40 (FiveUnder) and 50 (Blackjack), each above 21 (so the caller's
while (21 >= total) loop exits on any terminal state); and in the result
comparison a Blackjack hand beats a FiveUnder hand and a FiveUnder hand
beats every ordinary total up to and including 21. -/
theorem sentinel_scores_ordering (hand : List Nat) (t : Nat) :
    (classify hand ≤ 21 ↔ stateOf hand = HandState.inProgress) ∧
    (stateOf hand ≠ HandState.inProgress → 21 < classify hand) ∧
    (stateOf hand = HandState.bust → classify hand = BUST_SCORE) ∧
    (stateOf hand = HandState.blackjack → classify hand = BLACKJACK_SCORE) ∧
    (stateOf hand = HandState.fiveUnder → classify hand = FIVE_UNDER_SCORE) ∧
    (stateOf hand = HandState.inProgress → classify hand = adjustedTotal hand) ∧
    (t ≤ 21 → compareTotals FIVE_UNDER_SCORE t = Outcome.playerWins) ∧
    compareTotals BLACKJACK_SCORE FIVE_UNDER_SCORE = Outcome.playerWins := by
  have hiff := classify_le21_iff hand
  refine ⟨hiff, ?_, ?_, ?_, ?_, ?_, fun ht => fiveUnder_beats t ht, by decide⟩
  · intro h
    by_contra hc
    exact h (hiff.1 (by omega))
  all_goals intro h
  all_goals rcases classify_stateOf_cases hand with ⟨hs, hc⟩ | ⟨hs, hc⟩ |
    ⟨hs, hc⟩ | ⟨hs, hc, hle⟩ <;> rw [hs] at h <;> first
      | exact absurd h (by decide)
      | exact hc

/-- Witness for C10 at a small in-progress hand and the boundary total 21. -/
theorem sentinel_scores_ordering_witness :
    stateOf [2, 3] = HandState.inProgress ∧
    (21 ≤ 21 ∧ compareTotals FIVE_UNDER_SCORE 21 = Outcome.playerWins) ∧
    classify [2, 3] = adjustedTotal [2, 3] :=
  ⟨by decide,
    ⟨by decide, (sentinel_scores_ordering [2, 3] 21).2.2.2.2.2.2.1 (by decide)⟩,
    (sentinel_scores_ordering [2, 3] 21).2.2.2.2.2.1 (by decide)⟩

/-- The player turn loop of blackjack(), as a function of the current hand,
the stream of cards still to be drawn, and the player's Hit (true) / Sit
(false) answers: while (21 >= player_total) either draw another card on Hit
or break on Sit.  An exhausted answer list ends the turn like a Sit. -/
def playerLoop : List Nat → List Nat → List Bool → List Nat
  | hand, _, [] => hand
  | hand, stream, choice :: more =>
    if 21 < classify hand then hand
    else if choice then
      match stream with
      | [] => hand
      | c :: rest => playerLoop (hand ++ [c]) rest more
    else hand

/-- The dealer turn loop of blackjack(), as a function of the current hand
and the stream of cards still to be drawn: while (21 >= dealer_total),
hit while the total is below 17, otherwise sit. -/
def dealerLoop : List Nat → List Nat → List Nat
  | hand, [] => hand
  | hand, c :: rest =>
    if 21 < classify hand then hand
    else if classify hand < 17 then dealerLoop (hand ++ [c]) rest
    else hand

/-- The busy wait, while (BUTTON_SELECT != ReadButtons());, on a list of
pending debounced button events: it consumes events up to and including the
first Select, and fails (the source would spin forever) if none arrives. -/
def waitSelect : List Nat → Option (List Nat)
  | [] => none
  | b :: rest => if b = BUTTON_SELECT then some rest else waitSelect rest

/-- The dealer turn loop together with its pacing waits: before each Hit
and before the final Sit the source busy-waits for a Select press.  The
button events only gate progress; no value read from them flows into the
totals or the hit/stand decision. -/
def dealerLoopPaced (hand stream btns : List Nat) : Option (List Nat) :=
  if 21 < classify hand then some hand
  else if classify hand < 17 then
    match waitSelect btns with
    | none => none
    | some btns2 =>
      match stream with
      | [] => none
      | c :: rest => dealerLoopPaced (hand ++ [c]) rest btns2
  else
    match waitSelect btns with
    | none => none
    | some _ => some hand
termination_by stream.length
decreasing_by simp_all [Nat.lt_succ_iff]

lemma dealerLoopPaced_eq (stream : List Nat) : ∀ hand btns h,
    dealerLoopPaced hand stream btns = some h → h = dealerLoop hand stream := by
  induction stream with
  | nil =>
    intro hand btns h hEq
    unfold dealerLoopPaced at hEq
    by_cases h21 : 21 < classify hand
    · rw [if_pos h21] at hEq
      injection hEq with hh
      rw [← hh]
      rfl
    · rw [if_neg h21] at hEq
      by_cases h17 : classify hand < 17
      · rw [if_pos h17] at hEq
        cases hw : waitSelect btns <;> rw [hw] at hEq
        · exact Option.noConfusion hEq
        · exact Option.noConfusion hEq
      · rw [if_neg h17] at hEq
        cases hw : waitSelect btns <;> rw [hw] at hEq
        · exact Option.noConfusion hEq
        · injection hEq with hh
          rw [← hh]
          rfl
  | cons c rest ih =>
    intro hand btns h hEq
    unfold dealerLoopPaced at hEq
    by_cases h21 : 21 < classify hand
    · rw [if_pos h21] at hEq
      injection hEq with hh
      rw [← hh]
      simp [dealerLoop, h21]
    · rw [if_neg h21] at hEq
      by_cases h17 : classify hand < 17
      · rw [if_pos h17] at hEq
        cases hw : waitSelect btns <;> rw [hw] at hEq
        · exact Option.noConfusion hEq
        · rw [ih (hand ++ [c]) _ h hEq]
          simp [dealerLoop, h21, h17]
      · rw [if_neg h17] at hEq
        cases hw : waitSelect btns <;> rw [hw] at hEq
        · exact Option.noConfusion hEq
        · injection hEq with hh
          rw [← hh]
          simp [dealerLoop, h21, h17]

lemma dealerLoop_consumes (stream : List Nat) : ∀ hand,
    classify (dealerLoop hand stream) < 17 →
    dealerLoop hand stream = hand ++ stream := by
  induction stream with
  | nil => intro hand _; simp [dealerLoop]
  | cons c rest ih =>
    intro hand h
    by_cases h21 : 21 < classify hand
    · rw [show dealerLoop hand (c :: rest) = hand from by
        simp [dealerLoop, h21]] at h
      exact absurd h (by omega)
    · by_cases h17 : classify hand < 17
      · have e : dealerLoop hand (c :: rest) = dealerLoop (hand ++ [c]) rest := by
          simp [dealerLoop, h21, h17]
        rw [e] at h ⊢
        rw [ih (hand ++ [c]) h]
        simp
      · have e : dealerLoop hand (c :: rest) = hand := by
          simp [dealerLoop, h21, h17]
        rw [e] at h
        exact absurd h h17

/-- C5: the dealer turn is a deterministic function of the card stream and
independent of the button input: whenever the paced loop completes it
produces exactly the input-free dealerLoop result (so two completions under
different button traces agree); one loop step draws a card precisely when
the current total is below 17 (a total below 17 is never a terminal
sentinel, so "below 17 and not terminal" collapses to "below 17"); and the
dealer only ever stops below 17 when the card stream itself runs out. -/
theorem dealer_policy_deterministic :
    (∀ hand stream btns h, dealerLoopPaced hand stream btns = some h →
      h = dealerLoop hand stream) ∧
    (∀ hand stream btns1 btns2 h1 h2,
      dealerLoopPaced hand stream btns1 = some h1 →
      dealerLoopPaced hand stream btns2 = some h2 → h1 = h2) ∧
    (∀ hand c rest, dealerLoop hand (c :: rest) =
      if classify hand < 17 then dealerLoop (hand ++ [c]) rest else hand) ∧
    (∀ hand, classify hand < 17 → stateOf hand = HandState.inProgress) ∧
    (∀ hand stream, classify (dealerLoop hand stream) < 17 →
      dealerLoop hand stream = hand ++ stream) := by
  refine ⟨fun hand stream btns h hEq => dealerLoopPaced_eq stream hand btns h hEq,
    ?_, ?_, ?_, fun hand stream h => dealerLoop_consumes stream hand h⟩
  · intro hand stream btns1 btns2 h1 h2 e1 e2
    rw [dealerLoopPaced_eq stream hand btns1 h1 e1,
      dealerLoopPaced_eq stream hand btns2 h2 e2]
  · intro hand c rest
    by_cases h17 : classify hand < 17
    · have h21 : ¬ 21 < classify hand := by omega
      simp [dealerLoop, h21, h17]
    · by_cases h21 : 21 < classify hand <;> simp [dealerLoop, h21, h17]
  · intro hand h17
    exact (classify_le21_iff hand).1 (by omega)

/-- Witness for C5: a dealer holding 2 + 3 (total 5, below 17) draws the
one remaining card of the stream. -/
theorem dealer_policy_deterministic_witness :
    classify (dealerLoop [2, 3] [2]) < 17 ∧
    dealerLoop [2, 3] [2] = [2, 3] ++ [2] :=
  ⟨by decide, dealer_policy_deterministic.2.2.2.2 [2, 3] [2] (by decide)⟩

lemma playerLoop_len (choices : List Bool) : ∀ hand stream : List Nat,
    hand.length ≤ 5 → (playerLoop hand stream choices).length ≤ 5 := by
  induction choices with
  | nil => intro hand stream h; simpa [playerLoop] using h
  | cons choice more ih =>
    intro hand stream h
    by_cases h21 : 21 < classify hand
    · cases stream <;> simpa [playerLoop, h21] using h
    · cases choice
      · cases stream <;> simpa [playerLoop, h21] using h
      · cases stream with
        | nil => simpa [playerLoop, h21] using h
        | cons c rest =>
          have h4 : hand.length ≤ 4 := length_le_four_of_not_terminal hand h21
          have hstep : (hand ++ [c]).length ≤ 5 := by simp; omega
          simpa [playerLoop, h21] using ih (hand ++ [c]) rest hstep

lemma dealerLoop_len (stream : List Nat) : ∀ hand : List Nat,
    hand.length ≤ 5 → (dealerLoop hand stream).length ≤ 5 := by
  induction stream with
  | nil => intro hand h; simpa [dealerLoop] using h
  | cons c rest ih =>
    intro hand h
    by_cases h21 : 21 < classify hand
    · simpa [dealerLoop, h21] using h
    · by_cases h17 : classify hand < 17
      · have h4 : hand.length ≤ 4 := length_le_four_of_not_terminal hand h21
        have hstep : (hand ++ [c]).length ≤ 5 := by simp; omega
        simpa [dealerLoop, h21, h17] using ih (hand ++ [c]) hstep
      · simpa [dealerLoop, h21, h17] using h

/-- C6: a hand never grows beyond 5 cards in either turn loop (any 5-card
hand scores a sentinel above 21, so the loops stop offering draws), and
every 5-card hand whose Ace-adjusted total is at most 21 is classified
FiveUnder by draw_new_cards. -/
theorem five_card_cap :
    (∀ hand stream choices, List.length hand ≤ 5 →
      (playerLoop hand stream choices).length ≤ 5) ∧
    (∀ hand stream, List.length hand ≤ 5 →
      (dealerLoop hand stream).length ≤ 5) ∧
    (∀ hand : List Nat, hand.length = 5 → adjustedTotal hand ≤ 21 →
      classify hand = FIVE_UNDER_SCORE) := by
  refine ⟨fun hand stream choices h => playerLoop_len choices hand stream h,
    fun hand stream h => dealerLoop_len stream hand h, ?_⟩
  intro hand hlen hle
  rw [classify_eq]
  rw [if_neg (by omega), if_neg (by omega), if_pos (by omega)]

/-- Witness for C6: the 5-card hand 2 3 4 5 6 totals 20 and is FiveUnder,
and a full player loop from it draws nothing further. -/
theorem five_card_cap_witness :
    (([2, 3, 4, 5, 6] : List Nat).length = 5 ∧
      adjustedTotal [2, 3, 4, 5, 6] ≤ 21 ∧
      classify [2, 3, 4, 5, 6] = FIVE_UNDER_SCORE) ∧
    (([2, 3] : List Nat).length ≤ 5 ∧
      (playerLoop [2, 3] [4, 5, 6, 7, 8] [true, true, true, true]).length ≤ 5) :=
  ⟨⟨by decide, by decide,
      five_card_cap.2.2 [2, 3, 4, 5, 6] (by decide) (by decide)⟩,
    ⟨by decide,
      five_card_cap.1 [2, 3] [4, 5, 6, 7, 8] [true, true, true, true] (by decide)⟩⟩

/-- Result of one full round of blackjack(): the two final totals, the
hand the dealer ended with (empty when the dealer turn was skipped), and
the outcome of the comparison. -/
structure RoundResult where
  playerTotal : Nat
  dealerTotal : Nat
  dealerHand : List Nat
  outcome : Outcome

/-- One round of the do-while body of blackjack(): the player starts from
two cards a, b and plays out choices against the stream ps; if the player
did not bust, the dealer starts from two cards c, d and plays the fixed
policy against ds, otherwise the dealer turn is skipped and the dealer
total keeps its initialisation value 1; finally both totals are compared
after Bust normalisation. -/
def playRound (a b : Nat) (ps : List Nat) (choices : List Bool)
    (c d : Nat) (ds : List Nat) : RoundResult :=
  let pt := classify (playerLoop [a, b] ps choices)
  if pt = BUST_SCORE then
    ⟨pt, 1, [], compareTotals pt 1⟩
  else
    let dh := dealerLoop [c, d] ds
    ⟨pt, classify dh, dh, compareTotals pt (classify dh)⟩

/-- C7: when the player's turn ends in Bust, the round skips the dealer
turn entirely (the dealer's hand stays empty), keeps the dealer total at
its non-zero initialisation value 1, and the comparison (Bust normalised
to 0) makes the dealer win by default. -/
theorem player_bust_skips_dealer (a b : Nat) (ps : List Nat)
    (choices : List Bool) (c d : Nat) (ds : List Nat)
    (hbust : classify (playerLoop [a, b] ps choices) = BUST_SCORE) :
    (playRound a b ps choices c d ds).dealerHand = [] ∧
    (playRound a b ps choices c d ds).dealerTotal = 1 ∧
    (playRound a b ps choices c d ds).outcome = Outcome.dealerWins := by
  have h : playRound a b ps choices c d ds =
      ⟨BUST_SCORE, 1, [], compareTotals BUST_SCORE 1⟩ := by
    unfold playRound
    rw [hbust]
    simp
  rw [h]
  exact ⟨rfl, rfl, by decide⟩

/-- Witness for C7: the player draws 10 + 10, hits, receives a 5 and
busts; the dealer hand stays empty and the dealer wins by default. -/
theorem player_bust_skips_dealer_witness :
    classify (playerLoop [10, 10] [5] [true]) = BUST_SCORE ∧
    ((playRound 10 10 [5] [true] 2 2 []).dealerHand = [] ∧
      (playRound 10 10 [5] [true] 2 2 []).dealerTotal = 1 ∧
      (playRound 10 10 [5] [true] 2 2 []).outcome = Outcome.dealerWins) :=
  ⟨by decide, player_bust_skips_dealer 10 10 [5] [true] 2 2 [] (by decide)⟩

/-- Specification-side drawCard for the terminal-state contract of the
spec's section 7: drawing after a terminal state is a broken caller
contract and must fail loudly, so it is modelled as returning none there,
and as appending the card and rescoring otherwise. -/
def drawCardChecked (hand : List Nat) (card : Nat) : Option Nat :=
  if stateOf hand = HandState.inProgress then
    some (classify (hand ++ [card]))
  else none

/-- C9 counterexample: on the terminal (Bust) hand 10 10 10 the
specification-side drawCard fails, but the source's draw_new_cards has no
assert or panic path at all: it silently appends the card and rescores,
returning the Bust sentinel again. -/
theorem draw_after_terminal_silent :
    stateOf [10, 10, 10] = HandState.bust ∧
    drawCardChecked [10, 10, 10] 5 = none ∧
    classify ([10, 10, 10] ++ [5]) = BUST_SCORE := by
  decide

/-- C9 as amended: draw_new_cards itself does not detect a draw after a
terminal state (it silently rescores, as the counterexample shows); the
caller contract is enforced solely by the turn orchestrator, whose player
and dealer loops never draw on a hand whose score is a terminal sentinel. -/
theorem terminal_enforced_by_orchestrator (hand stream : List Nat)
    (choices : List Bool) (hterm : 21 < classify hand) :
    playerLoop hand stream choices = hand ∧ dealerLoop hand stream = hand := by
  constructor
  · cases choices <;> cases stream <;> simp [playerLoop, hterm]
  · cases stream <;> simp [dealerLoop, hterm]

/-- Witness for the amended C9 at the terminal hand 10 10 10. -/
theorem terminal_enforced_by_orchestrator_witness :
    21 < classify [10, 10, 10] ∧
    (playerLoop [10, 10, 10] [2] [true] = [10, 10, 10] ∧
      dealerLoop [10, 10, 10] [2] = [10, 10, 10]) :=
  ⟨by decide, terminal_enforced_by_orchestrator [10, 10, 10] [2] [true] (by decide)⟩

/-- The voltage-window classification at the top of ReadButtons: a raw
10-bit ADC sample is mapped to a button identity, defaulting to
BUTTON_NONE when no window matches. -/
def decodeButton (buttonVoltage : Nat) : Nat :=
  if buttonVoltage < RIGHT_10BIT_ADC + BUTTONHYSTERESIS then BUTTON_RIGHT
  else if UP_10BIT_ADC - BUTTONHYSTERESIS ≤ buttonVoltage ∧
      buttonVoltage ≤ UP_10BIT_ADC + BUTTONHYSTERESIS then BUTTON_UP
  else if DOWN_10BIT_ADC - BUTTONHYSTERESIS ≤ buttonVoltage ∧
      buttonVoltage ≤ DOWN_10BIT_ADC + BUTTONHYSTERESIS then BUTTON_DOWN
  else if LEFT_10BIT_ADC - BUTTONHYSTERESIS ≤ buttonVoltage ∧
      buttonVoltage ≤ LEFT_10BIT_ADC + BUTTONHYSTERESIS then BUTTON_LEFT
  else if SELECT_10BIT_ADC - BUTTONHYSTERESIS ≤ buttonVoltage ∧
      buttonVoltage ≤ SELECT_10BIT_ADC + BUTTONHYSTERESIS then BUTTON_SELECT
  else BUTTON_NONE

/-- The two static variables of ReadButtons. -/
structure DebounceState where
  buttonWas : Nat
  debounce_detection : Nat

/-- One call of ReadButtons on a raw sample: decode the sample, then run
the debounce logic.  The source statement debounce_detection << 1; computes
a shift and discards the result, so it leaves the counter unchanged; the
counter (a byte, hence the mod 256) is incremented when the decoded button
differs from buttonWas, and only when it equals DEBOUNCE_BIT_MASK (63) is
the new button committed and returned; every other call returns
BUTTON_NONE. -/
def ReadButtonsStep (s : DebounceState) (buttonVoltage : Nat) :
    Nat × DebounceState :=
  let button := decodeButton buttonVoltage
  let d := if s.buttonWas ≠ button then (s.debounce_detection + 1) % 256
    else s.debounce_detection
  if d = DEBOUNCE_BIT_MASK then (button, ⟨button, 0⟩)
  else (BUTTON_NONE, ⟨s.buttonWas, d⟩)

/-- The sequence of ReadButtons return values along a list of raw samples,
threading the static state between the calls. -/
def pollRun (s : DebounceState) : List Nat → List Nat
  | [] => []
  | sample :: rest =>
    let r := ReadButtonsStep s sample
    r.1 :: pollRun r.2 rest

/-- C1 (code bug): from the initial debounce state, seven consecutive
polls whose sample 972 decodes to the stable identity Select — the spec's
threshold of 6 consecutive matching reads plus one settle poll — all
return BUTTON_NONE; no call of the run returns Select.  Because the result
of debounce_detection << 1 is discarded, the counter has to count 63
cumulative differing polls (DEBOUNCE_BIT_MASK) before a press is reported,
contradicting the spec and the source's own comment that six straight new
reads commit the new button. -/
theorem debounce_stable_run_returns_none :
    pollRun ⟨BUTTON_NONE, 0⟩ (List.replicate 7 SELECT_10BIT_ADC) =
      List.replicate 7 BUTTON_NONE := by
  decide

/-- Context for C1: with the discarded shift, the press is reported only
on the 63rd poll of the stable Select run, and exactly once. -/
theorem debounce_fires_on_poll_63 :
    pollRun ⟨BUTTON_NONE, 0⟩ (List.replicate 63 SELECT_10BIT_ADC) =
      List.replicate 62 BUTTON_NONE ++ [BUTTON_SELECT] := by
  decide

/-- The wrap-around applied by selection_input after changing the value:
below zero loops to the maximum, above the maximum loops to zero. -/
def selWrap (v maximum : Int) : Int :=
  if v < 0 then maximum else if maximum < v then 0 else v

/-- The value change performed by one call of selection_input of the dice
roller for a given debounced button event: Up and Select add 2 and fall
through to the Down case's decrement (net +1), Down decrements, and every
other button leaves the value unchanged (Left/Right only move the field
focus).  The int8_t variable is modelled as Int; the range hypotheses used
below keep it inside the int8_t range. -/
def selection_input_step (v maximum : Int) (button : Nat) : Int :=
  if button = BUTTON_UP ∨ button = BUTTON_SELECT then
    selWrap (v + 2 - 1) maximum
  else if button = BUTTON_DOWN then selWrap (v - 1) maximum
  else v

/-- Iterated Up presses, as polled by selection_input. -/
def iterateUp (maximum : Int) : Nat → Int → Int
  | 0, v => v
  | n + 1, v => iterateUp maximum n (selection_input_step v maximum BUTTON_UP)

/-- C8 counterexample: on the dice-type field (bound 6, seven values 0..6)
six consecutive Up events starting from 0 leave the index at 6, the
maximum — not back at 0 as the claim states; wrapping modulo bound+1 = 7
needs a seventh press. -/
theorem six_up_wrap_counterexample :
    iterateUp 6 6 0 = 6 ∧ iterateUp 6 6 0 ≠ 0 := by
  decide

/-- C8 as amended: Up and Select increment and Down decrements the index,
wrapping modulo bound+1, so the index stays within 0..bound; on the
dice-type field (bound 6) starting from 0, six consecutive Up events reach
the maximum index 6 and the seventh returns the index to 0.  The bound
hypothesis maximum ≤ 125 keeps the Int model inside int8_t. -/
theorem selection_cyclic_wrap (v maximum : Int) (h0 : 0 ≤ v)
    (h1 : v ≤ maximum) (h2 : maximum ≤ 125) :
    selection_input_step v maximum BUTTON_UP = (v + 1) % (maximum + 1) ∧
    selection_input_step v maximum BUTTON_SELECT = (v + 1) % (maximum + 1) ∧
    selection_input_step v maximum BUTTON_DOWN = (v + maximum) % (maximum + 1) ∧
    (0 ≤ selection_input_step v maximum BUTTON_UP ∧
      selection_input_step v maximum BUTTON_UP ≤ maximum) ∧
    (0 ≤ selection_input_step v maximum BUTTON_DOWN ∧
      selection_input_step v maximum BUTTON_DOWN ≤ maximum) ∧
    iterateUp 6 7 0 = 0 := by
  have hup : selection_input_step v maximum BUTTON_UP = selWrap (v + 1) maximum := by
    simp [selection_input_step, BUTTON_UP, BUTTON_SELECT]
    congr 1
    omega
  have hsel : selection_input_step v maximum BUTTON_SELECT =
      selWrap (v + 1) maximum := by
    simp [selection_input_step, BUTTON_UP, BUTTON_SELECT]
    congr 1
    omega
  have hdown : selection_input_step v maximum BUTTON_DOWN =
      selWrap (v - 1) maximum := by
    simp [selection_input_step, BUTTON_UP, BUTTON_SELECT, BUTTON_DOWN]
  have hupmod : selWrap (v + 1) maximum = (v + 1) % (maximum + 1) := by
    unfold selWrap
    rw [if_neg (by omega)]
    by_cases hmax : maximum < v + 1
    · have hv : v = maximum := by omega
      rw [if_pos hmax, hv, Int.emod_self]
    · rw [if_neg hmax, Int.emod_eq_of_lt (by omega) (by omega)]
  have hdownmod : selWrap (v - 1) maximum = (v + maximum) % (maximum + 1) := by
    have key : (v + maximum) % (maximum + 1) = (v - 1) % (maximum + 1) := by
      have e : v + maximum = v - 1 + (maximum + 1) * 1 := by ring
      rw [e, Int.add_mul_emod_self_left]
    rw [key]
    unfold selWrap
    by_cases hneg : v - 1 < 0
    · have hv : v = 0 := by omega
      rw [if_pos hneg, hv]
      have e : (0 : Int) - 1 + (maximum + 1) * 1 = maximum := by ring
      rw [← Int.add_mul_emod_self_left (a := (0 : Int) - 1) (b := maximum + 1) (c := 1), e,
        Int.emod_eq_of_lt (by omega) (by omega)]
    · rw [if_neg hneg, if_neg (by omega), Int.emod_eq_of_lt (by omega) (by omega)]
  refine ⟨by rw [hup, hupmod], by rw [hsel, hupmod], by rw [hdown, hdownmod],
    ?_, ?_, by decide⟩
  · rw [hup]; unfold selWrap; split_ifs <;> omega
  · rw [hdown]; unfold selWrap; split_ifs <;> omega

/-- Witness for the amended C8 at index 3 on the dice-type field. -/
theorem selection_cyclic_wrap_witness :
    ((0 : Int) ≤ 3 ∧ (3 : Int) ≤ 6 ∧ (6 : Int) ≤ 125) ∧
    (selection_input_step 3 6 BUTTON_UP = (3 + 1) % (6 + 1) ∧
      selection_input_step 3 6 BUTTON_SELECT = (3 + 1) % (6 + 1) ∧
      selection_input_step 3 6 BUTTON_DOWN = (3 + 6) % (6 + 1) ∧
      (0 ≤ selection_input_step 3 6 BUTTON_UP ∧
        selection_input_step 3 6 BUTTON_UP ≤ 6) ∧
      (0 ≤ selection_input_step 3 6 BUTTON_DOWN ∧
        selection_input_step 3 6 BUTTON_DOWN ≤ 6) ∧
      iterateUp 6 7 0 = 0) :=
  ⟨⟨by decide, by decide, by decide⟩,
    selection_cyclic_wrap 3 6 (by decide) (by decide) (by decide)⟩

end ArduinoMisc
